import Mathlib

/-!
Shallow embedding of `pypsa/linopt.py`: the LP text-format writer
(`write_bound`, `write_constraint`, `linexpr`, `_str_array`,
`broadcasted_axes`), the token counters (`xCounter`/`cCounter`,
`reset_counter`), the variable/constraint reference table
(`set_varref`/`set_conref`, `clear_references`) and the result-reading
sections of the three solver functions (`run_and_read_cbc`,
`run_and_read_glpk`, `run_and_read_gurobi`).

Modelling conventions:
* Python float values appearing in this module are exact decimals
  (bounds, coefficients, solver table entries); they are embedded as a
  mantissa/power-of-ten pair `Dec`, and Python's `repr`/`str` of such a
  float (as produced by f-strings and `astype(str)`) is embedded by
  `pyFloatRepr`.
* numpy object arrays of strings are embedded as `List String`, 1-D
  numeric arrays as `List Dec`; the elementwise string concatenations of
  the source become `List.zipWith`-style maps.
* the external file system is embedded as an effect log: each solver
  function returns, next to its Python return value, the list of paths
  removed by its `os.system("rm …")` calls, in order.
* a Python exception is an `Except.error` carrying the exception text.
-/

/-- Fuel-driven little-endian decimal digits of a natural number; with
`fuel = n` this computes the digits of `n` (base 10). -/
def natDigitsRev : Nat → Nat → List Nat
  | 0, _ => []
  | _ + 1, 0 => []
  | fuel + 1, n + 1 => ((n + 1) % 10) :: natDigitsRev fuel ((n + 1) / 10)

/-- Decimal rendering of a natural number, as Python renders `int`s and
as Python's f-strings render the counters in `f'x{x}'` / `f'c{x}'`. -/
def natStr (n : Nat) : String :=
  if n = 0 then "0" else ⟨((natDigitsRev n n).map Nat.digitChar).reverse⟩

/-- An exact decimal number `mant / 10 ^ exp`: the embedding of the
Python floats handled by this module (bounds, coefficients, solution
values), all of which carry exact short decimal values. -/
structure Dec where
  mant : Int
  exp : Nat
deriving DecidableEq

/-- Strip trailing zero decimal digits from a mantissa/exponent pair
(`fuel` bounds the number of steps; callers pass `exp`). Python's float
`repr` prints the shortest decimal form, so `2.50` prints as `"2.5"`. -/
def decNormAux : Nat → Int → Nat → Int × Nat
  | 0, m, e => (m, e)
  | fuel + 1, m, e =>
    if e = 0 then (m, e)
    else if m % 10 = 0 then decNormAux fuel (m / 10) (e - 1)
    else (m, e)

/-- Exactly `e` decimal digits of `m` (most significant first), used for
the fractional part of a float rendering, e.g. `0.05` keeps its zero. -/
def fixedDigits : Nat → Nat → List Char
  | 0, _ => []
  | e + 1, m => fixedDigits e (m / 10) ++ [Nat.digitChar (m % 10)]

/-- Python `repr`/`str` of the float denoted by `d`: optional minus sign,
integer part, a dot, and the fractional digits with trailing zeros
stripped (at least one digit, so integral floats end in `.0`). -/
def pyFloatRepr (d : Dec) : String :=
  let n := decNormAux d.exp d.mant d.exp
  let m := n.1.natAbs
  let e := n.2
  (if n.1 < 0 then "-" else "") ++ natStr (m / 10 ^ e) ++ "." ++
    (if e = 0 then "0" else ⟨fixedDigits e (m % 10 ^ e)⟩)

/-- Elementwise semantics of `_str_array` on numeric data: the scalar
branch renders `f'+{float(v)} '` for `v >= 0` and `f'{float(v)} '`
otherwise; the array branch builds `sign + abs(array).astype(str) + ' '`
with sign `'+'` for `0` and positive entries. Both yield a sign
character, the decimal text of the absolute value and a trailing
space. -/
def _str_array (d : Dec) : String :=
  (if d.mant < 0 then "-" else "+") ++ pyFloatRepr ⟨(d.mant.natAbs : Int), d.exp⟩ ++ " "

/-- Whether two exact decimals denote the same number
(cross-multiplied mantissas agree). -/
def Dec.sameVal (a b : Dec) : Bool :=
  a.mant * (10 : Int) ^ b.exp == b.mant * (10 : Int) ^ a.exp

/-- Boolean list prefix test (used to embed `str.startswith` and the
`.str[0] == 'x'` index tests). -/
def listIsPre : List Char → List Char → Bool
  | [], _ => true
  | _ :: _, [] => false
  | a :: as, b :: bs => a == b && listIsPre as bs

/-- Boolean contiguous-sublist test, embedding Python's `in` on strings. -/
def listHasSub (needle : List Char) : List Char → Bool
  | [] => needle.isEmpty
  | hd :: tl => listIsPre needle (hd :: tl) || listHasSub needle tl

/-- Python `sub in k` for strings. -/
def containsStr (k sub : String) : Bool :=
  listHasSub sub.data k.data

/-- Python `s.startswith(p)`. -/
def strStartsWith (s p : String) : Bool :=
  listIsPre p.data s.data

/-- Character-level drop, embedding Python slicing `s[n:]`. -/
def strDrop (s : String) (n : Nat) : String :=
  ⟨s.data.drop n⟩

/-- Whitespace characters stripped by Python's `str.strip()` and by
`float(...)` before parsing. -/
def isPySpace (ch : Char) : Bool :=
  ch == ' ' || ch == '\n' || ch == '\t' || ch == '\r'

/-- Python `s.strip()`. -/
def pyStrip (s : String) : String :=
  ⟨((s.data.dropWhile isPySpace).reverse.dropWhile isPySpace).reverse⟩

/-- Python `s.lower()` (ASCII case folding as used on solver status
words). -/
def pyLower (s : String) : String :=
  ⟨s.data.map Char.toLower⟩

/-- ASCII decimal digit test, embedding the regex class `[0-9]`. -/
def isDigitChar (ch : Char) : Bool :=
  '0' ≤ ch && ch ≤ '9'

/-- Value of a string of decimal digits, most significant first. -/
def digitsToNat (l : List Char) : Nat :=
  l.foldl (fun acc ch => acc * 10 + (ch.toNat - 48)) 0

/-- Python `float(s)` restricted to the plain decimal literals this
module's solution files contain: optional surrounding whitespace,
optional sign, digits with an optional fractional part. Returns `none`
where `float` raises `ValueError`. -/
def parsePyFloat (s : String) : Option Dec :=
  let cs := (pyStrip s).data
  let signKept : Int × List Char :=
    match cs with
    | '-' :: rest => (-1, rest)
    | '+' :: rest => (1, rest)
    | _ => (1, cs)
  let sgn := signKept.1
  let body := signKept.2
  let ip := body.takeWhile isDigitChar
  let rest := body.dropWhile isDigitChar
  match rest with
  | [] => if ip.isEmpty then none else some ⟨sgn * (digitsToNat ip : Int), 0⟩
  | '.' :: fr =>
    if fr.all isDigitChar && !(ip.isEmpty && fr.isEmpty) then
      some ⟨sgn * ((digitsToNat ip * 10 ^ fr.length + digitsToNat fr : Nat) : Int), fr.length⟩
    else none
  | _ => none

/-- The module-level counters `xCounter` and `cCounter`. -/
structure CounterState where
  xCounter : Nat
  cCounter : Nat
deriving DecidableEq

/-- `reset_counter()`: both counters are set back to 0. -/
def reset_counter : CounterState :=
  ⟨0, 0⟩

/-- The two token kinds minted by the writers: variables (`x…`, by
`write_bound`) and constraints (`c…`, by `write_constraint`). -/
inductive TokenKind where
  | var
  | con
deriving DecidableEq

/-- Token minting step shared by `write_bound` and `write_constraint`:
the kind's counter is advanced by `length` and the tokens
`[f'x{i}' for i in range(old, old + length)]` (resp. `c`) are built. -/
def allocate (s : CounterState) : TokenKind → Nat → List String × CounterState
  | .var, length =>
    ((List.range' s.xCounter length).map (fun i => "x" ++ natStr i),
      { s with xCounter := s.xCounter + length })
  | .con, length =>
    ((List.range' s.cCounter length).map (fun i => "c" ++ natStr i),
      { s with cCounter := s.cCounter + length })

/-- A whole writing session between two `reset_counter()` calls: the
requested allocations are performed in order from the given counter
state, and each minted token list is kept with its kind. -/
def runAllocs : CounterState → List (TokenKind × Nat) → List (TokenKind × List String) × CounterState
  | s, [] => ([], s)
  | s, (k, n) :: rest =>
    let p := allocate s k n
    let r := runAllocs p.2 rest
    ((k, p.1) :: r.1, r.2)

/-- All tokens of one kind minted during a session, in minting order. -/
def kindTokens (k : TokenKind) : List (TokenKind × List String) → List String
  | [] => []
  | (k2, ts) :: rest => (if k2 = k then ts else []) ++ kindTokens k rest

/-- Total number of tokens of one kind requested by a session. -/
def sumKind (k : TokenKind) : List (TokenKind × Nat) → Nat
  | [] => 0
  | (k2, n) :: rest => (if k2 = k then n else 0) + sumKind k rest

/-- Ternary zip used for the elementwise string concatenations of the
writer functions. -/
def zipWith3 (f : α → β → γ → δ) : List α → List β → List γ → List δ
  | a :: as, b :: bs, c :: cs => f a b c :: zipWith3 f as bs cs
  | _, _, _ => []

/-- The 1-D instance of `write_bound(n, lower, upper, axes)` with `axes`
an index of length `axisLen`: the counter mints `axisLen` variable
tokens, each flattened element of
`lower + ' <= ' + variables + ' <= ' + upper + '\n'` is written to the
bounds sink, and the token array is returned (a `pd.Series`, i.e. a 1-D
container). The result is (lines written in order, returned tokens, new
counter state). -/
def write_bound (s : CounterState) (lower upper : List Dec) (axisLen : Nat) :
    List String × List String × CounterState :=
  let length := axisLen
  let vars := (List.range' s.xCounter length).map (fun i => "x" ++ natStr i)
  let lowerS := lower.map _str_array
  let upperS := upper.map _str_array
  let lines := zipWith3 (fun lo v up => lo ++ " <= " ++ v ++ " <= " ++ up ++ "\n") lowerS vars upperS
  (lines, vars, { s with xCounter := s.xCounter + length })

/-- The 1-D instance of `write_constraint(n, lhs, sense, rhs, axes)`:
`'=' if sense == '==' else sense`, `axisLen` constraint tokens are
minted, each flattened element of
`cons + ':\n' + lhs + sense + '\n' + rhs + '\n\n'` is written to the
constraints sink, and the token array is returned. `lhs` is an already
rendered expression array (object dtype, `_str_array` passes it through
unchanged), `rhs` is numeric and rendered elementwise. -/
def write_constraint (s : CounterState) (lhs : List String) (sense : String) (rhs : List Dec)
    (axisLen : Nat) : List String × List String × CounterState :=
  let length := axisLen
  let cons := (List.range' s.cCounter length).map (fun i => "c" ++ natStr i)
  let senseN := if sense = "==" then "=" else sense
  let rhsS := rhs.map _str_array
  let lines := zipWith3 (fun c l r => c ++ ":\n" ++ l ++ senseN ++ "\n" ++ r ++ "\n\n") cons lhs rhsS
  (lines, cons, { s with cCounter := s.cCounter + length })

/-- An operand of `broadcasted_axes`, reduced to what that function
inspects: scalars and unlabeled arrays contribute nothing, a
`pd.Series` carries one labeled axis, a `pd.DataFrame` two (index, then
columns). -/
inductive Operand where
  | scalar
  | vec (index : List String)
  | mat (index cols : List String)
deriving DecidableEq

/-- The `df.axes` of an operand. -/
def opAxes : Operand → List (List String)
  | .scalar => []
  | .vec index => [index]
  | .mat index cols => [index, cols]

/-- Loop of `broadcasted_axes`: per labeled operand, when some axes are
already fixed the assert compares the trailing axes
(`axes[-1] == df.axes[-1]`, any difference surfaces as an exception),
then the operand with more dimensions wins (`axes = df.axes if
len(df.axes) > len(axes) else axes`). -/
def ba_go : List (List String) → List Operand → Except String (List (List String))
  | axes, [] => .ok axes
  | axes, df :: rest =>
    if (opAxes df).isEmpty then ba_go axes rest
    else if axes.isEmpty then ba_go (opAxes df) rest
    else if axes.getLast? = (opAxes df).getLast? then
      ba_go (if (opAxes df).length > axes.length then opAxes df else axes) rest
    else .error "Series or DataFrames are not aligned"

/-- `broadcasted_axes(*dfs)`: the retained axes together with
`tuple(map(len, axes))`, or the alignment exception. -/
def broadcasted_axes (dfs : List Operand) : Except String (List (List String) × List Nat) :=
  (ba_go [] dfs).map (fun axes => (axes, axes.map List.length))

/-- `linexpr(*tuples)` at all-scalar operands (shape `()`): the single
output element starts empty and each `(coeff, var)` pair appends
`_str_array(coeff) + _str_array(var) + '\n'`; a scalar string variable
passes through `_str_array` unchanged. -/
def linexpr (tuples : List (Dec × String)) : String :=
  tuples.foldl (fun expr t => expr ++ _str_array t.1 ++ t.2 ++ "\n") ""

/-- Module constant `var_ref_suffix`. -/
def var_ref_suffix : String := "_varref"

/-- Module constant `con_ref_suffix`. -/
def con_ref_suffix : String := "_conref"

/-- One row of `n.varTable` / `n.conTable`: the `pnl` flag and the
free-text `specification`. -/
structure RefEntry where
  pnl : Bool
  spec : String
deriving DecidableEq

/-- Keys of the bookkeeping tables: (component name, attribute name) for
the entry tables, (component name, column name) for the storages. -/
abbrev RefKey := String × String

/-- Lookup in an association list (the embedding of `(c, attr) in
index` plus `.at[...]` access). -/
def lookupKey {β : Type} (k : RefKey) : List (RefKey × β) → Option β
  | [] => none
  | (k2, v) :: rest => if k2 = k then some v else lookupKey k rest

/-- Overwrite-or-append in an association list (the embedding of
`.loc[key] = value` and of storing a token frame under a column name). -/
def setKey {β : Type} (k : RefKey) (v : β) : List (RefKey × β) → List (RefKey × β)
  | [] => [(k, v)]
  | (k2, v2) :: rest => if k2 = k then (k2, v) :: rest else (k2, v2) :: setKey k v rest

/-- The `+= ', ' + spec` update of the `specification` cell, leaving the
`pnl` cell of the same row untouched. -/
def appendSpec (k : RefKey) (spec : String) : List (RefKey × RefEntry) → List (RefKey × RefEntry)
  | [] => []
  | (k2, e) :: rest =>
    if k2 = k then (k2, ⟨e.pnl, e.spec ++ ", " ++ spec⟩) :: rest
    else (k2, e) :: appendSpec k spec rest

/-- The slice of the network object that `set_varref`/`set_conref`
mutate: the two entry tables and the two token storage areas
(time-varying `n.pnl(c)` columns and static `n.df(c)` columns), each
keyed by component and column name. -/
structure Network where
  varTable : List (RefKey × RefEntry)
  conTable : List (RefKey × RefEntry)
  pnlStore : List (RefKey × List String)
  staticStore : List (RefKey × List String)
deriving DecidableEq

/-- `_add_reference(n, df, c, attr, suffix, pnl)`: the token frame is
stored under column `attr + suffix` of the component's time-varying
area when `pnl` is true, of its static area otherwise (the pandas
column-merge detail of an existing time-varying frame is embedded as
key-level storage). -/
def _add_reference (n : Network) (df : List String) (c attr suffix : String) (pnl : Bool) : Network :=
  let attr_name := attr ++ suffix
  if pnl then { n with pnlStore := setKey (c, attr_name) df n.pnlStore }
  else { n with staticStore := setKey (c, attr_name) df n.staticStore }

/-- `set_varref(n, variables, c, attr, pnl, spec)`: nothing happens for
an empty token container; otherwise, when `(c, attr)` is already
registered and `spec != ''`, the new spec is comma-appended to the
stored specification, else the row is (over)written as `[pnl, spec]`;
in both cases the tokens are stored via `_add_reference` with
`var_ref_suffix`. -/
def set_varref (n : Network) (vars : List String) (c attr : String) (pnl : Bool)
    (spec : String) : Network :=
  if vars.isEmpty then n
  else
    let n2 :=
      if (lookupKey (c, attr) n.varTable).isSome && spec != "" then
        { n with varTable := appendSpec (c, attr) spec n.varTable }
      else
        { n with varTable := setKey (c, attr) ⟨pnl, spec⟩ n.varTable }
    _add_reference n2 vars c attr var_ref_suffix pnl

/-- `set_conref(n, constraints, c, attr, pnl, spec)`: as `set_varref`,
on the constraints table and with `con_ref_suffix`. -/
def set_conref (n : Network) (constraints : List String) (c attr : String) (pnl : Bool)
    (spec : String) : Network :=
  if constraints.isEmpty then n
  else
    let n2 :=
      if (lookupKey (c, attr) n.conTable).isSome && spec != "" then
        { n with conTable := appendSpec (c, attr) spec n.conTable }
      else
        { n with conTable := setKey (c, attr) ⟨pnl, spec⟩ n.conTable }
    _add_reference n2 constraints c attr con_ref_suffix pnl

/-- A Python value as it appears in the cleanup condition of
`clear_references`: `con_ref_suffix in k` is a `bool`,
`- (var_ref_suffix in k)` is an `int`. -/
inductive PyVal where
  | bool (b : Bool)
  | int (i : Int)
deriving DecidableEq

/-- Python unary minus on a `bool`: `-True == -1`, `-False == 0`. -/
def pyNegBool (b : Bool) : Int :=
  if b then -1 else 0

/-- Python truthiness of the values the condition can produce. -/
def pyTruthy : PyVal → Bool
  | .bool b => b
  | .int i => i != 0

/-- The value of `(con_ref_suffix in k) or - (var_ref_suffix in k)`:
Python `or` returns its first operand when that is truthy and its
second operand otherwise. -/
def cleanupCond (k : String) : PyVal :=
  let a := containsStr k con_ref_suffix
  if a then .bool a else .int (pyNegBool (containsStr k var_ref_suffix))

/-- The key loop of `clear_references(n)` over one component's
time-series dictionary: every key whose cleanup condition is truthy is
popped; the result is the list of surviving keys. -/
def clear_references_keys (keys : List String) : List String :=
  keys.filter (fun k => !(pyTruthy (cleanupCond k)))

/-- The common return record of the three `run_and_read_*` functions:
`(status, termination_condition, variables_sol, constraints_dual,
objective)`, with `None` payloads embedded as `none`. -/
structure SolverReturn where
  status : String
  termination_condition : String
  variables_sol : Option (List (String × Dec))
  constraints_dual : Option (List (String × Dec))
  objective : Option Dec
deriving DecidableEq

/-- One data row of a cbc solution file below the status line: the token
name (column 1), the value column (2) and the dual column (3). -/
structure SolRow where
  name : String
  col2 : Dec
  col3 : Dec
deriving DecidableEq

/-- Result-reading section of `run_and_read_cbc` (everything after the
solver subprocess): `data` is the first line of the solution file,
`rows` its remaining parsed rows. On a first line starting with
`"Optimal - objective value"` the objective is `float(data[26:])`, rows
are split on leading `'x'` into variable values (column 2) and
constraint duals (column 3), and with `keep_files` false both files are
removed before returning. On any other first line only
`termination_condition` is assigned (`"infeasible"` when the line
contains `"Infeasible"`, else `"other"`); the local `status` is never
assigned, so the early `return status, …` raises `UnboundLocalError`.
The second component is the list of files removed. -/
def run_and_read_cbc (data : String) (rows : List SolRow) (keep_files : Bool)
    (problem_fn solution_fn : String) : Except String SolverReturn × List String :=
  if strStartsWith data "Optimal - objective value" then
    match parsePyFloat (strDrop data 26) with
    | none => (.error "ValueError: could not convert string to float", [])
    | some objective =>
      let variables_sol := (rows.filter (fun r => strStartsWith r.name "x")).map
        (fun r => (r.name, r.col2))
      let constraints_dual := (rows.filter (fun r => !(strStartsWith r.name "x"))).map
        (fun r => (r.name, r.col3))
      let deleted := if keep_files then [] else [problem_fn, solution_fn]
      (.ok ⟨"optimal", "optimal", some variables_sol, some constraints_dual, some objective⟩,
        deleted)
  else
    let termination_condition := if containsStr data "Infeasible" then "infeasible" else "other"
    (.error ("UnboundLocalError: local variable 'status' referenced before assignment" ++
      " (termination_condition was '" ++ termination_condition ++ "')"), [])

/-- One data row of the fixed-width table of a glpk solution file:
`Row name`, the `Activity` column (floats) and the `Marginal` column
(`none` where `pd.to_numeric(…, 'coerce')` yields NaN). -/
structure GlpkRow where
  name : String
  activity : Dec
  marginal : Option Dec
deriving DecidableEq

/-- Result-reading section of `run_and_read_glpk`: `statusField` and
`objField` are the values of the colon-separated header block's
`Status` and `Objective` keys, `rows` the fixed-width table. The status
is lowercased and stripped; the objective is
`float(re.sub('[^0-9]+', '', info.Objective))` — every non-digit
character is removed, sign and decimal point included (`float('')`
raises when no digit remains). Non-optimal status returns the record
with `None` payloads; otherwise rows are split on leading `'x'` and
`'c'`, missing marginals are coerced to 0, and with `keep_files` false
both files are removed. -/
def run_and_read_glpk (statusField objField : String) (rows : List GlpkRow) (keep_files : Bool)
    (problem_fn solution_fn : String) : Except String SolverReturn × List String :=
  let status := pyStrip (pyLower statusField)
  let stripped := objField.data.filter isDigitChar
  if stripped.isEmpty then (.error "ValueError: could not convert string to float", [])
  else
    let objective : Dec := ⟨(digitsToNat stripped : Int), 0⟩
    let termination_condition := status
    if termination_condition ≠ "optimal" then
      (.ok ⟨status, termination_condition, none, none, none⟩, [])
    else
      let varRows := rows.filter (fun r => strStartsWith r.name "x")
      let restRows := rows.filter (fun r => !(strStartsWith r.name "x"))
      let conRows := restRows.filter (fun r => strStartsWith r.name "c")
      let variables_sol := varRows.map (fun r => (r.name, r.activity))
      let constraints_dual := conRows.map (fun r => (r.name, r.marginal.getD ⟨0, 0⟩))
      let deleted := if keep_files then [] else [problem_fn, solution_fn]
      (.ok ⟨status, termination_condition, some variables_sol, some constraints_dual,
        some objective⟩, deleted)

/-- Result-reading section of `run_and_read_gurobi` (after
`m.optimize()` and the basis write): `statusName` is the lowercase name
the status map yields for `m.status`, `varVals`/`conDuals`/`objVal`
what the model object would report. The problem file (only — no
solution file exists) is removed whenever `keep_files` is false, before
the optimality check; non-optimal status then returns `None`
payloads. -/
def run_and_read_gurobi (statusName : String) (varVals conDuals : List (String × Dec))
    (objVal : Dec) (keep_files : Bool) (problem_fn : String) :
    Except String SolverReturn × List String :=
  let deleted := if keep_files then [] else [problem_fn]
  let status := statusName
  let termination_condition := status
  if termination_condition ≠ "optimal" then
    (.ok ⟨status, termination_condition, none, none, none⟩, deleted)
  else
    (.ok ⟨status, termination_condition, some varVals, some conDuals, some objVal⟩, deleted)

/-- Whether a solver function's Python return value is a successful
parse with optimal termination condition. -/
def parsedOptimal : Except String SolverReturn → Bool
  | .ok r => r.termination_condition == "optimal"
  | .error _ => false

/-- Helper: `String.append` concatenates the character data. -/
theorem str_append_data (a b : String) : (a ++ b).data = a.data ++ b.data := rfl

/-- Helper: strings with equal character data are equal. -/
theorem str_data_inj {a b : String} (h : a.data = b.data) : a = b := by
  cases a; cases b; exact congrArg String.mk h

/-- Helper: the fuel-driven digit list agrees with `Nat.digits 10`. -/
theorem natDigitsRev_eq_digits (fuel n : Nat) (h : n ≤ fuel) :
    natDigitsRev fuel n = Nat.digits 10 n := by
  induction fuel generalizing n with
  | zero =>
    have hn : n = 0 := Nat.le_zero.mp h
    subst hn; simp [natDigitsRev]
  | succ fuel ih =>
    match n with
    | 0 => simp [natDigitsRev]
    | m + 1 =>
      rw [natDigitsRev, Nat.digits_def' (b := 10) (by norm_num) (Nat.succ_pos m)]
      congr 1
      have hlt : (m + 1) / 10 < m + 1 := Nat.div_lt_self (Nat.succ_pos m) (by norm_num)
      exact ih ((m + 1) / 10) (by omega)

/-- Helper: `Nat.digitChar` is injective on decimal digits. -/
theorem digitChar_inj_lt : ∀ d, d < 10 → ∀ e, e < 10 →
    Nat.digitChar d = Nat.digitChar e → d = e := by decide

/-- Helper: mapping `Nat.digitChar` over digit lists is injective. -/
theorem map_digitChar_inj : ∀ l1 l2 : List Nat, (∀ d ∈ l1, d < 10) → (∀ d ∈ l2, d < 10) →
    l1.map Nat.digitChar = l2.map Nat.digitChar → l1 = l2
  | [], [], _, _, _ => rfl
  | [], _ :: _, _, _, h => by simp at h
  | _ :: _, [], _, _, h => by simp at h
  | a :: as, b :: bs, h1, h2, h => by
    simp only [List.map_cons, List.cons.injEq] at h
    have ha := digitChar_inj_lt a (h1 a (by simp)) b (h2 b (by simp)) h.1
    have ht := map_digitChar_inj as bs (fun d hd => h1 d (by simp [hd]))
      (fun d hd => h2 d (by simp [hd])) h.2
    rw [ha, ht]

/-- Helper: `natStr` of a positive number renders its decimal digits. -/
theorem natStr_of_ne_zero (n : Nat) (hn : n ≠ 0) :
    natStr n = ⟨((Nat.digits 10 n).map Nat.digitChar).reverse⟩ := by
  unfold natStr
  rw [if_neg hn, natDigitsRev_eq_digits n n le_rfl]

/-- Helper: decimal rendering of naturals is injective. -/
theorem natStr_injective : Function.Injective natStr := by
  intro m n h
  by_cases hm : m = 0 <;> by_cases hn : n = 0
  · exact hm.trans hn.symm
  · exfalso
    subst hm
    rw [natStr_of_ne_zero n hn] at h
    have hd : ['0'] = ((Nat.digits 10 n).map Nat.digitChar).reverse := congrArg String.data h
    have hd2 : (Nat.digits 10 n).map Nat.digitChar = [0].map Nat.digitChar := by
      have := congrArg List.reverse hd
      simpa using this.symm
    have : Nat.digits 10 n = [0] :=
      map_digitChar_inj _ _ (fun d hd => Nat.digits_lt_base (by norm_num) hd)
        (by intro d hd; simp at hd; omega) hd2
    have hzero : n = 0 := by
      have h0 := Nat.ofDigits_digits 10 n
      rw [this] at h0
      simpa [Nat.ofDigits] using h0.symm
    exact hn hzero
  · exfalso
    subst hn
    rw [natStr_of_ne_zero m hm] at h
    have hd : ((Nat.digits 10 m).map Nat.digitChar).reverse = ['0'] := congrArg String.data h
    have hd2 : (Nat.digits 10 m).map Nat.digitChar = [0].map Nat.digitChar := by
      have := congrArg List.reverse hd
      simpa using this
    have : Nat.digits 10 m = [0] :=
      map_digitChar_inj _ _ (fun d hd => Nat.digits_lt_base (by norm_num) hd)
        (by intro d hd; simp at hd; omega) hd2
    have h0 := Nat.ofDigits_digits 10 m
    rw [this] at h0
    exact hm (by simpa [Nat.ofDigits] using h0.symm)
  · rw [natStr_of_ne_zero m hm, natStr_of_ne_zero n hn] at h
    have hd := congrArg String.data h
    have hd2 : (Nat.digits 10 m).map Nat.digitChar = (Nat.digits 10 n).map Nat.digitChar := by
      have := congrArg List.reverse hd
      simpa using this
    have hdig : Nat.digits 10 m = Nat.digits 10 n :=
      map_digitChar_inj _ _ (fun d hdm => Nat.digits_lt_base (by norm_num) hdm)
        (fun d hdn => Nat.digits_lt_base (by norm_num) hdn) hd2
    have h1 := Nat.ofDigits_digits 10 m
    have h2 := Nat.ofDigits_digits 10 n
    rw [← h1, ← h2, hdig]

/-- Helper: prefixing a fixed string before `natStr` stays injective. -/
theorem append_natStr_inj (p : String) : Function.Injective (fun i => p ++ natStr i) := by
  intro a b h
  apply natStr_injective
  have h2 : p.data ++ (natStr a).data = p.data ++ (natStr b).data := by
    rw [← str_append_data, ← str_append_data]
    exact congrArg String.data h
  exact str_data_inj (List.append_cancel_left h2)

/-- Helper: variable tokens minted across a whole session are the
decimal renderings of one contiguous counter range. -/
theorem runAllocs_var_tokens (reqs : List (TokenKind × Nat)) (s : CounterState) :
    kindTokens .var (runAllocs s reqs).1 =
      (List.range' s.xCounter (sumKind .var reqs)).map (fun i => "x" ++ natStr i) ∧
    kindTokens .con (runAllocs s reqs).1 =
      (List.range' s.cCounter (sumKind .con reqs)).map (fun i => "c" ++ natStr i) := by
  induction reqs generalizing s with
  | nil => simp [runAllocs, kindTokens, sumKind]
  | cons hd tl ih =>
    obtain ⟨k, n⟩ := hd
    have hrv := List.range'_append s.xCounter n (sumKind TokenKind.var tl) 1
    have hrc := List.range'_append s.cCounter n (sumKind TokenKind.con tl) 1
    cases k
    · have ihv := (ih { s with xCounter := s.xCounter + n }).1
      have ihc := (ih { s with xCounter := s.xCounter + n }).2
      refine ⟨?_, ?_⟩
      · simp only [runAllocs, allocate, kindTokens, sumKind, ihv]
        rw [if_pos trivial, if_pos trivial, ← List.map_append]
        rw [one_mul] at hrv
        rw [Nat.add_comm n (sumKind TokenKind.var tl), ← hrv]
      · simp [runAllocs, allocate, kindTokens, sumKind, ihc]
    · have ihv := (ih { s with cCounter := s.cCounter + n }).1
      have ihc := (ih { s with cCounter := s.cCounter + n }).2
      refine ⟨?_, ?_⟩
      · simp [runAllocs, allocate, kindTokens, sumKind, ihv]
      · simp only [runAllocs, allocate, kindTokens, sumKind, ihc]
        rw [if_pos trivial, if_pos trivial, ← List.map_append]
        rw [one_mul] at hrc
        rw [Nat.add_comm n (sumKind TokenKind.con tl), ← hrc]

/-- C5: within one session started by `reset_counter`, the variable
(resp. constraint) tokens minted over any sequence of allocations are
exactly the renderings `x0, x1, …` (resp. `c0, c1, …`) of the
contiguous counter range starting at 0, hence pairwise distinct; and a
single allocation from any counter state mints the contiguous strictly
increasing suffix run starting at that kind's current counter, so the
first allocation after a reset restarts at suffix 0. -/
theorem token_allocator_session (reqs : List (TokenKind × Nat)) (s : CounterState) (n : Nat) :
    (kindTokens .var (runAllocs reset_counter reqs).1 =
        (List.range' 0 (sumKind .var reqs)).map (fun i => "x" ++ natStr i))
  ∧ (kindTokens .con (runAllocs reset_counter reqs).1 =
        (List.range' 0 (sumKind .con reqs)).map (fun i => "c" ++ natStr i))
  ∧ (kindTokens .var (runAllocs reset_counter reqs).1).Nodup
  ∧ (kindTokens .con (runAllocs reset_counter reqs).1).Nodup
  ∧ ((allocate s .var n).1 = (List.range' s.xCounter n).map (fun i => "x" ++ natStr i))
  ∧ ((allocate s .con n).1 = (List.range' s.cCounter n).map (fun i => "c" ++ natStr i)) := by
  have hv := (runAllocs_var_tokens reqs reset_counter).1
  have hc := (runAllocs_var_tokens reqs reset_counter).2
  refine ⟨hv, hc, ?_, ?_, rfl, rfl⟩
  · rw [hv]
    exact (List.nodup_range' 0 _).map (append_natStr_inj "x")
  · rw [hc]
    exact (List.nodup_range' 0 _).map (append_natStr_inj "c")

/-- C2 (counterexample): at the input pairs `(1, "a1")`, `(-0.5, "b1")`
the renderer does not produce the space-separated string
`"+1.0 a1 -0.5 b1 "` the claim states. -/
theorem linexpr_pair_not_space_separated :
    linexpr [(⟨1, 0⟩, "a1"), (⟨-5, 1⟩, "b1")] ≠ "+1.0 a1 -0.5 b1 " := by decide

/-- C2 (amended): at the input pairs `(1, "a1")`, `(-0.5, "b1")` the
renderer produces exactly `"+1.0 a1\n-0.5 b1\n"` — each coefficient
sign-prefixed with a trailing space, the two terms concatenated in
input order, each term followed by a newline character. -/
theorem linexpr_pair_newline_terms :
    linexpr [(⟨1, 0⟩, "a1"), (⟨-5, 1⟩, "b1")] = "+1.0 a1\n-0.5 b1\n" := rfl

/-- C1 (failing input): a well-formed cbc solution file whose first line
reports an infeasible result makes `run_and_read_cbc` raise
`UnboundLocalError` (the local `status` is assigned only on the optimal
branch) instead of returning
`(status, "infeasible", None, None, None)`. -/
theorem cbc_infeasible_raises_unbound_status :
    run_and_read_cbc "Infeasible - objective value 0" [] false "problem.lp" "solution.sol" =
      (.error ("UnboundLocalError: local variable 'status' referenced before assignment" ++
        " (termination_condition was 'infeasible')"), []) := rfl

/-- C3 (failing input): with the header's Objective field reading
`" obj = 12.5 (MINimum)"`, the glpk reader strips the decimal point as
well (the regex removes every non-digit) and returns objective `125`,
which is not the printed value `12.5`. -/
theorem glpk_objective_digit_stripping :
    (run_and_read_glpk "OPTIMAL" " obj = 12.5 (MINimum)" [] true "problem.lp"
      "solution.sol").1 =
      .ok ⟨"optimal", "optimal", some [], some [], some ⟨125, 0⟩⟩
  ∧ Dec.sameVal ⟨125, 0⟩ ⟨125, 1⟩ = false := by
  exact ⟨rfl, by decide⟩

/-- C6: starting from freshly reset counters, `write_bound` with lower
bounds `[0.0, 0.0]`, upper bounds `[1.0, 2.0]` and a 1-dimensional
shape of length 2 writes exactly the two lines
`"+0.0  <= x0 <= +1.0 \n"` and `"+0.0  <= x1 <= +2.0 \n"` in row-major
order, returns the freshly allocated tokens `x0, x1` in a
one-dimensional container, and advances the variable counter to 2. -/
theorem write_bound_concrete :
    write_bound reset_counter [⟨0, 0⟩, ⟨0, 0⟩] [⟨1, 0⟩, ⟨2, 0⟩] 2 =
      (["+0.0  <= x0 <= +1.0 \n", "+0.0  <= x1 <= +2.0 \n"], ["x0", "x1"], ⟨2, 0⟩) := rfl

/-- C9: for every key, the source's cleanup condition
`(con_ref_suffix in k) or - (var_ref_suffix in k)` is truthy exactly
when the boolean disjunction of the two substring tests holds (Python's
`-True` is `-1`, which is truthy, and `-False` is `0`, falsy), so the
reference cleanup removes exactly the time-series keys containing
either suffix and keeps all others. -/
theorem clear_references_cond_equiv :
    (∀ k : String, pyTruthy (cleanupCond k) =
        (containsStr k con_ref_suffix || containsStr k var_ref_suffix))
  ∧ (∀ keys : List String, clear_references_keys keys =
        keys.filter (fun k => !(containsStr k con_ref_suffix || containsStr k var_ref_suffix))) := by
  have h : ∀ k : String, pyTruthy (cleanupCond k) =
      (containsStr k con_ref_suffix || containsStr k var_ref_suffix) := by
    intro k
    cases hc : containsStr k con_ref_suffix <;>
      cases hv : containsStr k var_ref_suffix <;>
        simp [cleanupCond, pyTruthy, pyNegBool, hc, hv]
  refine ⟨h, fun keys => ?_⟩
  unfold clear_references_keys
  exact List.filter_congr (fun x _ => by rw [h x])

/-- C10: with `keep_files` false, the cbc and glpk readers remove the
problem file and the solution file exactly when the parse succeeded
with an optimal termination condition (on a non-optimal or raising
outcome no file is touched), while the gurobi function removes the
problem file only — and does so regardless of the optimality check. -/
theorem solver_file_cleanup (data : String) (rows : List SolRow)
    (statusField objField : String) (grows : List GlpkRow) (statusName : String)
    (varVals conDuals : List (String × Dec)) (objVal : Dec)
    (keep_files : Bool) (problem_fn solution_fn : String) :
    ((run_and_read_cbc data rows keep_files problem_fn solution_fn).2 =
      if !keep_files &&
          parsedOptimal (run_and_read_cbc data rows keep_files problem_fn solution_fn).1
      then [problem_fn, solution_fn] else [])
  ∧ ((run_and_read_glpk statusField objField grows keep_files problem_fn solution_fn).2 =
      if !keep_files &&
          parsedOptimal
            (run_and_read_glpk statusField objField grows keep_files problem_fn solution_fn).1
      then [problem_fn, solution_fn] else [])
  ∧ ((run_and_read_gurobi statusName varVals conDuals objVal keep_files problem_fn).2 =
      if keep_files then [] else [problem_fn]) := by
  refine ⟨?_, ?_, ?_⟩
  · simp only [run_and_read_cbc]
    split
    · split
      · simp [parsedOptimal]
      · cases keep_files <;> simp [parsedOptimal]
    · simp [parsedOptimal]
  · simp only [run_and_read_glpk]
    split
    · simp [parsedOptimal]
    · split
      · next h => simp [parsedOptimal, h]
      · next h =>
        rw [not_not] at h
        cases keep_files <;> simp [parsedOptimal, h]
  · simp only [run_and_read_gurobi]
    split <;> cases keep_files <;> simp

/-- Helper: on a successful scan starting from nonempty fixed axes,
every labeled operand scanned agrees with the fixed trailing axis. -/
theorem ba_go_ok_trailing : ∀ (ops : List Operand) (axes A : List (List String)),
    ba_go axes ops = .ok A → axes ≠ [] →
    ∀ op ∈ ops, opAxes op ≠ [] → (opAxes op).getLast? = axes.getLast?
  | [], _, _, _, _, op, hop, _ => by simp at hop
  | df :: rest, axes, A, h, hne, op, hop, hlab => by
    simp only [ba_go] at h
    by_cases h1 : (opAxes df).isEmpty
    · rw [if_pos h1] at h
      rcases List.mem_cons.mp hop with rfl | hmem
      · exact absurd (List.isEmpty_iff.mp h1) hlab
      · exact ba_go_ok_trailing rest axes A h hne op hmem hlab
    · rw [if_neg h1] at h
      have hax : ¬ axes.isEmpty = true := fun hc => hne (List.isEmpty_iff.mp hc)
      rw [if_neg hax] at h
      by_cases h2 : axes.getLast? = (opAxes df).getLast?
      · rw [if_pos h2] at h
        rcases List.mem_cons.mp hop with rfl | hmem
        · exact h2.symm
        · have hne2 : (if (opAxes df).length > axes.length then opAxes df else axes) ≠ [] := by
            split
            · exact fun hc => h1 (List.isEmpty_iff.mpr hc)
            · exact hne
          have hrec := ba_go_ok_trailing rest _ A h hne2 op hmem hlab
          rw [hrec]
          split
          · exact h2.symm
          · rfl
      · rw [if_neg h2] at h
        simp at h

/-- Helper: on a successful scan from scratch, all labeled operands
agree pairwise on their trailing axis. -/
theorem ba_go_nil_ok_agree : ∀ (ops : List Operand) (A : List (List String)),
    ba_go [] ops = .ok A →
    ∀ o1 ∈ ops, ∀ o2 ∈ ops, opAxes o1 ≠ [] → opAxes o2 ≠ [] →
      (opAxes o1).getLast? = (opAxes o2).getLast?
  | [], _, _, o1, h1, _, _, _, _ => by simp at h1
  | df :: rest, A, h, o1, ho1, o2, ho2, hl1, hl2 => by
    simp only [ba_go] at h
    by_cases hdf : (opAxes df).isEmpty
    · rw [if_pos hdf] at h
      rcases List.mem_cons.mp ho1 with rfl | hm1
      · exact absurd (List.isEmpty_iff.mp hdf) hl1
      rcases List.mem_cons.mp ho2 with rfl | hm2
      · exact absurd (List.isEmpty_iff.mp hdf) hl2
      exact ba_go_nil_ok_agree rest A h o1 hm1 o2 hm2 hl1 hl2
    · rw [if_neg hdf, if_pos List.isEmpty_nil] at h
      have hbase : ∀ op ∈ rest, opAxes op ≠ [] → (opAxes op).getLast? = (opAxes df).getLast? :=
        fun op hm hl => ba_go_ok_trailing rest (opAxes df) A h
          (fun hc => hdf (List.isEmpty_iff.mpr hc)) op hm hl
      rcases List.mem_cons.mp ho1 with rfl | hm1 <;> rcases List.mem_cons.mp ho2 with rfl | hm2
      · rfl
      · exact (hbase o2 hm2 hl2).symm
      · exact hbase o1 hm1 hl1
      · rw [hbase o1 hm1 hl1, hbase o2 hm2 hl2]

/-- Helper: the axes scan fails only with the alignment message. -/
theorem ba_go_error_msg : ∀ (ops : List Operand) (axes : List (List String)) (e : String),
    ba_go axes ops = .error e → e = "Series or DataFrames are not aligned"
  | [], _, _, h => by simp [ba_go] at h
  | df :: rest, axes, e, h => by
    simp only [ba_go] at h
    by_cases h1 : (opAxes df).isEmpty
    · rw [if_pos h1] at h
      exact ba_go_error_msg rest axes e h
    · rw [if_neg h1] at h
      by_cases h2 : axes.isEmpty
      · rw [if_pos h2] at h
        exact ba_go_error_msg rest (opAxes df) e h
      · rw [if_neg h2] at h
        by_cases h3 : axes.getLast? = (opAxes df).getLast?
        · rw [if_pos h3] at h
          exact ba_go_error_msg rest _ e h
        · rw [if_neg h3] at h
          exact (Except.error.inj h).symm

/-- C4 (counterexample): two DataFrames that agree on the trailing
(column) axis but disagree on the shared row axis do not raise —
`broadcasted_axes` silently returns the first operand's label sets. -/
theorem broadcasted_axes_row_mismatch_silent :
    (opAxes (Operand.mat ["r1"] ["c1"])).getD 0 [] ≠
      (opAxes (Operand.mat ["r2"] ["c1"])).getD 0 []
  ∧ broadcasted_axes [Operand.mat ["r1"] ["c1"], Operand.mat ["r2"] ["c1"]] =
      .ok ([["r1"], ["c1"]], [1, 1]) := ⟨by decide, rfl⟩

/-- C4 (amended): whenever two labeled operands passed to
`broadcasted_axes` disagree on the labels of the trailing axis —
compared by position and value — the function raises the
shape-mismatch error; a disagreement confined to the leading (row)
axis of two 2-D operands is not checked. -/
theorem broadcasted_axes_trailing_mismatch (ops : List Operand) (o1 o2 : Operand)
    (h1 : o1 ∈ ops) (h2 : o2 ∈ ops) (hl1 : opAxes o1 ≠ []) (hl2 : opAxes o2 ≠ [])
    (hne : (opAxes o1).getLast? ≠ (opAxes o2).getLast?) :
    broadcasted_axes ops = .error "Series or DataFrames are not aligned" := by
  unfold broadcasted_axes
  cases hba : ba_go [] ops with
  | ok A => exact absurd (ba_go_nil_ok_agree ops A hba o1 h1 o2 h2 hl1 hl2) hne
  | error e =>
    rw [ba_go_error_msg ops [] e hba]
    rfl

/-- C4 (witness): two series with different index labels are reported
misaligned. -/
theorem broadcasted_axes_trailing_mismatch_witness :
    broadcasted_axes [Operand.vec ["a"], Operand.vec ["b"]] =
      .error "Series or DataFrames are not aligned" :=
  broadcasted_axes_trailing_mismatch [Operand.vec ["a"], Operand.vec ["b"]]
    (Operand.vec ["a"]) (Operand.vec ["b"]) (by decide) (by decide) (by decide)
    (by decide) (by decide)

/-- Helper: length of a ternary zip. -/
theorem zipWith3_length (f : α → β → γ → δ) : ∀ (a : List α) (b : List β) (c : List γ),
    (zipWith3 f a b c).length = min a.length (min b.length c.length)
  | a :: as, b :: bs, c :: cs => by
    simp [zipWith3, zipWith3_length f as bs cs, Nat.succ_min_succ]
  | [], _, _ => by simp [zipWith3]
  | _ :: _, [], _ => by simp [zipWith3]
  | _ :: _, _ :: _, [] => by simp [zipWith3]

/-- Helper: in-bounds element of a ternary zip. -/
theorem zipWith3_getD (f : α → β → γ → δ) (da : α) (db : β) (dc : γ) (dd : δ) :
    ∀ (a : List α) (b : List β) (c : List γ) (i : Nat),
      i < a.length → i < b.length → i < c.length →
      (zipWith3 f a b c).getD i dd = f (a.getD i da) (b.getD i db) (c.getD i dc)
  | a :: as, b :: bs, c :: cs, 0, _, _, _ => by simp [zipWith3]
  | a :: as, b :: bs, c :: cs, i + 1, ha, hb, hc => by
    simpa [zipWith3, List.getD_cons_succ] using
      zipWith3_getD f da db dc dd as bs cs i (by simpa using ha) (by simpa using hb)
        (by simpa using hc)
  | [], _, _, i, ha, _, _ => by simp at ha
  | _ :: _, [], _, i, _, hb, _ => by simp at hb
  | _ :: _, _ :: _, [], i, _, _, hc => by simp at hc

/-- C7: for every element of the broadcast shape, `write_constraint`
appends to the constraints sink exactly the four-line block
`"{token}:\n{lhs}{sense}\n{rhs}\n\n"` for the freshly allocated
constraint token at that position, where a sense of `"=="` is
normalized to `"="` before writing; it writes exactly one block per
element and returns the allocated token array. -/
theorem write_constraint_blocks (s : CounterState) (lhs : List String) (sense : String)
    (rhs : List Dec) (n : Nat) (hl : lhs.length = n) (hr : rhs.length = n) :
    ((write_constraint s lhs sense rhs n).2.1 =
        (List.range' s.cCounter n).map (fun i => "c" ++ natStr i))
  ∧ ((write_constraint s lhs sense rhs n).1.length = n)
  ∧ (∀ i, i < n → (write_constraint s lhs sense rhs n).1.getD i "" =
      ("c" ++ natStr (s.cCounter + i)) ++ ":\n" ++ lhs.getD i "" ++
        (if sense = "==" then "=" else sense) ++ "\n" ++
        _str_array (rhs.getD i ⟨0, 0⟩) ++ "\n\n") := by
  refine ⟨rfl, ?_, ?_⟩
  · simp [write_constraint, zipWith3_length, hl, hr]
  · intro i hi
    simp only [write_constraint]
    rw [zipWith3_getD _ "" "" "" "" _ _ _ i (by simpa using hi) (by omega)
      (by simpa [hr] using hi)]
    have h1 : ((List.range' s.cCounter n).map (fun j => "c" ++ natStr j)).getD i "" =
        "c" ++ natStr (s.cCounter + i) := by
      rw [List.getD_eq_getElem _ _ (by simpa using hi), List.getElem_map,
        List.getElem_range']
      simp
    have h2 : (rhs.map _str_array).getD i "" = _str_array (rhs.getD i ⟨0, 0⟩) := by
      rw [List.getD_eq_getElem _ _ (by simpa [hr] using hi), List.getElem_map,
        List.getD_eq_getElem _ _ (by omega)]
    rw [h1, h2]

/-- C7 (witness): one concrete constraint block, with the `"=="` sense
written as `"="`. -/
theorem write_constraint_blocks_witness :
    (write_constraint ⟨0, 0⟩ ["+1.0 x1 "] "==" [⟨5, 0⟩] 1).1.getD 0 "" =
      "c0:\n+1.0 x1 =\n+5.0 \n\n" := by
  have h := (write_constraint_blocks ⟨0, 0⟩ ["+1.0 x1 "] "==" [⟨5, 0⟩] 1 rfl rfl).2.2 0
    (by decide)
  rw [h]
  rfl

/-- Helper: looking up the key just set. -/
theorem lookupKey_setKey_self {β : Type} (k : RefKey) (v : β) :
    ∀ l : List (RefKey × β), lookupKey k (setKey k v l) = some v
  | [] => by simp [setKey, lookupKey]
  | (k2, v2) :: rest => by
    by_cases h : k2 = k
    · simp [setKey, lookupKey, h]
    · simp only [setKey, lookupKey, if_neg h]
      exact lookupKey_setKey_self k v rest

/-- Helper: appending a spec fragment rewrites exactly the looked-up
row, leaving its flag in place. -/
theorem lookupKey_appendSpec_self (k : RefKey) (spec : String) :
    ∀ (l : List (RefKey × RefEntry)) (e : RefEntry), lookupKey k l = some e →
      lookupKey k (appendSpec k spec l) = some ⟨e.pnl, e.spec ++ ", " ++ spec⟩
  | [], e, h => by simp [lookupKey] at h
  | (k2, e2) :: rest, e, h => by
    by_cases hk : k2 = k
    · have he : e2 = e := by simpa [lookupKey, hk] using h
      subst he
      simp [appendSpec, lookupKey, hk]
    · have h2 : lookupKey k rest = some e := by simpa [lookupKey, hk] using h
      simp only [appendSpec, if_neg hk, lookupKey]
      exact lookupKey_appendSpec_self k spec rest e h2

/-- Helper: `_add_reference` leaves the two entry tables unchanged. -/
theorem _add_reference_tables (n : Network) (df : List String) (c attr suffix : String)
    (pnl : Bool) :
    (_add_reference n df c attr suffix pnl).varTable = n.varTable ∧
      (_add_reference n df c attr suffix pnl).conTable = n.conTable := by
  cases pnl <;> simp [_add_reference]

/-- Helper: `_add_reference` stores the token frame under
`attr ++ suffix` in the storage area selected by `pnl`. -/
theorem _add_reference_stores (n : Network) (df : List String) (c attr suffix : String)
    (pnl : Bool) :
    (if pnl then lookupKey (c, attr ++ suffix) (_add_reference n df c attr suffix pnl).pnlStore
     else lookupKey (c, attr ++ suffix) (_add_reference n df c attr suffix pnl).staticStore) =
      some df := by
  cases pnl <;> simp [_add_reference, lookupKey_setKey_self]

/-- C8: `set_varref`/`set_conref` with an empty token container leave
the network entirely unchanged; with non-empty tokens, when the
`(component, attribute)` key is already registered and a non-empty
provenance string is given, the new provenance is appended
comma-joined while the stored `pnl` flag is left untouched; otherwise
the entry's flag and provenance are written fresh; and in every
non-empty case the tokens are stored under the reference-suffix column
of the storage area selected by `pnl`. -/
theorem set_ref_semantics :
    (∀ (n : Network) (c attr : String) (pnl : Bool) (spec : String),
        set_varref n [] c attr pnl spec = n ∧ set_conref n [] c attr pnl spec = n)
  ∧ (∀ (n : Network) (toks : List String) (c attr : String) (pnl : Bool) (spec : String)
        (e : RefEntry), toks ≠ [] → lookupKey (c, attr) n.varTable = some e → spec ≠ "" →
        lookupKey (c, attr) (set_varref n toks c attr pnl spec).varTable =
          some ⟨e.pnl, e.spec ++ ", " ++ spec⟩)
  ∧ (∀ (n : Network) (toks : List String) (c attr : String) (pnl : Bool) (spec : String)
        (e : RefEntry), toks ≠ [] → lookupKey (c, attr) n.conTable = some e → spec ≠ "" →
        lookupKey (c, attr) (set_conref n toks c attr pnl spec).conTable =
          some ⟨e.pnl, e.spec ++ ", " ++ spec⟩)
  ∧ (∀ (n : Network) (toks : List String) (c attr : String) (pnl : Bool) (spec : String),
        toks ≠ [] → (lookupKey (c, attr) n.varTable = none ∨ spec = "") →
        lookupKey (c, attr) (set_varref n toks c attr pnl spec).varTable = some ⟨pnl, spec⟩)
  ∧ (∀ (n : Network) (toks : List String) (c attr : String) (pnl : Bool) (spec : String),
        toks ≠ [] → (lookupKey (c, attr) n.conTable = none ∨ spec = "") →
        lookupKey (c, attr) (set_conref n toks c attr pnl spec).conTable = some ⟨pnl, spec⟩)
  ∧ (∀ (n : Network) (toks : List String) (c attr : String) (pnl : Bool) (spec : String),
        toks ≠ [] →
        (if pnl then
          lookupKey (c, attr ++ var_ref_suffix) (set_varref n toks c attr pnl spec).pnlStore
         else
          lookupKey (c, attr ++ var_ref_suffix) (set_varref n toks c attr pnl spec).staticStore)
          = some toks)
  ∧ (∀ (n : Network) (toks : List String) (c attr : String) (pnl : Bool) (spec : String),
        toks ≠ [] →
        (if pnl then
          lookupKey (c, attr ++ con_ref_suffix) (set_conref n toks c attr pnl spec).pnlStore
         else
          lookupKey (c, attr ++ con_ref_suffix) (set_conref n toks c attr pnl spec).staticStore)
          = some toks) := by
  refine ⟨fun n c attr pnl spec => ⟨rfl, rfl⟩, ?_, ?_, ?_, ?_, ?_, ?_⟩
  · intro n toks c attr pnl spec e htoks hreg hspec
    have h0 : ¬(toks.isEmpty = true) := fun hc => htoks (List.isEmpty_iff.mp hc)
    have hc : ((lookupKey (c, attr) n.varTable).isSome && (spec != "")) = true := by
      simp [hreg, hspec]
    simp only [set_varref]
    rw [if_neg h0, if_pos hc, (_add_reference_tables _ _ _ _ _ _).1]
    exact lookupKey_appendSpec_self (c, attr) spec n.varTable e hreg
  · intro n toks c attr pnl spec e htoks hreg hspec
    have h0 : ¬(toks.isEmpty = true) := fun hc => htoks (List.isEmpty_iff.mp hc)
    have hc : ((lookupKey (c, attr) n.conTable).isSome && (spec != "")) = true := by
      simp [hreg, hspec]
    simp only [set_conref]
    rw [if_neg h0, if_pos hc, (_add_reference_tables _ _ _ _ _ _).2]
    exact lookupKey_appendSpec_self (c, attr) spec n.conTable e hreg
  · intro n toks c attr pnl spec htoks hcond
    have h0 : ¬(toks.isEmpty = true) := fun hc => htoks (List.isEmpty_iff.mp hc)
    have hc : ((lookupKey (c, attr) n.varTable).isSome && (spec != "")) = false := by
      rcases hcond with h | h <;> simp [h]
    simp only [set_varref]
    rw [if_neg h0, if_neg (by simp [hc]), (_add_reference_tables _ _ _ _ _ _).1]
    exact lookupKey_setKey_self (c, attr) ⟨pnl, spec⟩ n.varTable
  · intro n toks c attr pnl spec htoks hcond
    have h0 : ¬(toks.isEmpty = true) := fun hc => htoks (List.isEmpty_iff.mp hc)
    have hc : ((lookupKey (c, attr) n.conTable).isSome && (spec != "")) = false := by
      rcases hcond with h | h <;> simp [h]
    simp only [set_conref]
    rw [if_neg h0, if_neg (by simp [hc]), (_add_reference_tables _ _ _ _ _ _).2]
    exact lookupKey_setKey_self (c, attr) ⟨pnl, spec⟩ n.conTable
  · intro n toks c attr pnl spec htoks
    have h0 : ¬(toks.isEmpty = true) := fun hc => htoks (List.isEmpty_iff.mp hc)
    simp only [set_varref]
    rw [if_neg h0]
    exact _add_reference_stores _ toks c attr var_ref_suffix pnl
  · intro n toks c attr pnl spec htoks
    have h0 : ¬(toks.isEmpty = true) := fun hc => htoks (List.isEmpty_iff.mp hc)
    simp only [set_conref]
    rw [if_neg h0]
    exact _add_reference_stores _ toks c attr con_ref_suffix pnl

/-- C8 (witness): a concrete re-registration with a provenance string
appends comma-joined and keeps the stored flag. -/
theorem set_ref_semantics_witness :
    lookupKey ("Generator", "p")
      (set_varref ⟨[(("Generator", "p"), ⟨true, "old"⟩)], [], [], []⟩ ["x0"] "Generator" "p"
        false "new").varTable = some ⟨true, "old, new"⟩ := by
  have h := set_ref_semantics.2.1 ⟨[(("Generator", "p"), ⟨true, "old"⟩)], [], [], []⟩ ["x0"]
    "Generator" "p" false "new" ⟨true, "old"⟩ (by decide) (by decide) (by decide)
  rw [h]
  rfl
